import Mathlib

/-!
Verification of the Glue cross-frame messaging protocol (gluejs/glue).

The definitions below are a shallow embedding of the protocol core in
`src/glue.ts` (class `Controller`, and the legacy class `Glue` of the
earlier revision), together with the message handlers installed by the
`embed`/`enable` wrappers in `src/index.ts`.  JavaScript `Map`s are
modelled as association lists in insertion order, promises as explicit
`Except`/outcome values, and the asynchronous handler invocation
`handler(message).then(reply => replyMessage(...))` as a case split on
the handler's `Except` result (a rejected handler promise has no
`.catch` attached in the source, so it produces no effect).
-/

/-- Opaque JavaScript values carried in message payloads. -/
inductive JValue where
  | null
  | bool (b : Bool)
  | num (n : Int)
  | str (s : String)
  | error (msg : String)
deriving DecidableEq, Repr

/-- Result of an asynchronous local handler: `ok` for a resolved promise,
`error` for a rejected one (a thrown exception inside an async function). -/
def HandlerResult := Except JValue JValue

/-- Type-specific message bodies (`message.data` in `IPayload`).  The source
casts the opaque `data` per message type; the accessors below return `none`
where the JavaScript property read would yield `undefined`. -/
inductive MsgData where
  | nullD
  | initD (features : List String) (error : Bool)
  | callbackD (cbId : String) (value : JValue) (error : Bool)
  | callD (action : String) (args : Option (List JValue))
  | eventD (eventType : String) (args : Option (List JValue))
  | readyD (ready : Bool) (error : Bool) (value : JValue)
deriving DecidableEq, Repr

/-- Reads `data.callbackId` (as `ICallbackData`); `undefined` on other shapes. -/
def MsgData.cbIdOf : MsgData → Option String
  | .callbackD id _ _ => some id
  | _ => none

/-- Reads `data.error` (as `ICallbackData`); falsy when absent. -/
def MsgData.errorOf : MsgData → Bool
  | .callbackD _ _ e => e
  | _ => false

/-- Reads `data.data` (as `ICallbackData`); `undefined` (null) on other shapes. -/
def MsgData.valueOf : MsgData → JValue
  | .callbackD _ v _ => v
  | _ => .null

/-- Reads `data.action` (as `ICallData`). -/
def MsgData.actionOf : MsgData → Option String
  | .callD a _ => some a
  | _ => none

/-- Reads `data.args` (as `ICallData` or `IGlueEventData`). -/
def MsgData.argsOf : MsgData → Option (List JValue)
  | .callD _ a => a
  | .eventD _ a => a
  | _ => none

/-- Reads `data.event.type` (as `IGlueEventData`); `none` when `data.event`
is absent (the `if (!data.event)` check in the source). -/
def MsgData.eventTypeOf : MsgData → Option String
  | .eventD t _ => some t
  | _ => none

/-- The wire envelope `IPayload`.  `v` and `type` are optional because the
inbound validation checks them against `undefined`. -/
structure Payload where
  v : Option Nat
  glue : Bool
  type : Option String
  data : MsgData
  callbackId : Option String
deriving DecidableEq, Repr

/-- Protocol version constant `API_VERSION` of `src/glue.ts`. -/
def API_VERSION : Nat := 0

/-- Errors thrown by the protocol core, one constructor per `throw new
Error(...)` site (plus the enable-path timeout and init failure). -/
inductive GlueError where
  | destroyed
  | notAttached
  | alreadyAttached
  | alreadyInitialized
  | versionsIncompatible (got : Nat)
  | noCallbackId (msgType : String)
  | noEvent
  | unknownEvent (t : String)
  | timeout
  | initError
deriving DecidableEq, Repr

/-- Classification of the spec's error taxonomy: protocol-usage errors
(double init, missing correlation id, attach when attached, operation after
destroy or without attachment) versus recoverable or negotiation errors. -/
def GlueError.protocolViolationClass : GlueError → Bool
  | .destroyed => true
  | .notAttached => true
  | .alreadyAttached => true
  | .alreadyInitialized => true
  | .noCallbackId _ => true
  | .noEvent => true
  | _ => false

/-- An entry of the Event Listener Table (`IGlueEventListenerRecord`).
Listener functions are identified by an opaque tag `fn`; `options` is
`none` when no options object was supplied, otherwise the truthiness of
`options.once`. -/
structure ListenerRecord where
  fn : Nat
  options : Option Bool
deriving DecidableEq, Repr

/-- Value of `record.options && record.options.once`. -/
def ListenerRecord.once (r : ListenerRecord) : Bool :=
  r.options.getD false

/-- The mutable state of one `Controller` (one Transport Binding).  The
`handler` function field of the source is passed explicitly to the message
processing functions; `listening` records whether the constructor-installed
`message` listener is still registered. -/
structure ControllerState where
  origin : String
  callbackCounter : Nat
  callbackTable : List String
  eventListenerCounter : Nat
  eventListenerTable : List (String × List (String × ListenerRecord))
  events : Option (List String)
  window : Option Nat
  destroyed : Bool
  listening : Bool
deriving DecidableEq, Repr

/-- Local message handlers (the `handler` option of the `Controller`
constructor): an async function from the payload to a promise outcome. -/
def Handler := Payload → HandlerResult

/-- Association-list lookup, mirroring `Map.get`. -/
def alistGet {α : Type} (l : List (String × α)) (k : String) : Option α :=
  match l with
  | [] => none
  | (k1, v) :: rest => if k1 = k then some v else alistGet rest k

/-- Association-list update, mirroring `Map.set`: an existing key keeps its
insertion-order position, a new key is appended. -/
def alistSet {α : Type} (l : List (String × α)) (k : String) (v : α) :
    List (String × α) :=
  match l with
  | [] => [(k, v)]
  | (k1, v1) :: rest =>
      if k1 = k then (k1, v) :: rest else (k1, v1) :: alistSet rest k v

/-- Association-list removal, mirroring `Map.delete`. -/
def alistErase {α : Type} (l : List (String × α)) (k : String) :
    List (String × α) :=
  match l with
  | [] => []
  | (k1, v1) :: rest =>
      if k1 = k then rest else (k1, v1) :: alistErase rest k

/-- A call of `window.postMessage(message, targetOrigin)` performed by the
binding. -/
structure SendRec where
  payload : Payload
  targetOrigin : String
deriving DecidableEq, Repr

/-- Controller.postMessage: fails when not attached (the throw inside the
promise executor rejects the returned promise before any state change);
otherwise allocates the next correlation id `String(++callbackCounter)`,
stores a pending record under it, and posts the envelope at the current
target origin. -/
def ControllerState.postMessage (s : ControllerState) (type : String)
    (data : MsgData) : ControllerState × Option SendRec × Option GlueError :=
  match s.window with
  | none => (s, none, some .notAttached)
  | some _ =>
      let id := Nat.repr (s.callbackCounter + 1)
      let msg : Payload :=
        { v := some API_VERSION, glue := true, type := some type,
          data := data, callbackId := some id }
      ({ s with callbackCounter := s.callbackCounter + 1,
                callbackTable := s.callbackTable ++ [id] },
       some ⟨msg, s.origin⟩, none)

/-- Controller.replyMessage: posts a `callback` envelope whose
`ICallbackData` carries the correlated id and the reply value; no `error`
field is ever set.  The promise returned by `postMessage` is discarded, so
a `not attached` rejection is swallowed. -/
def ControllerState.replyMessage (s : ControllerState) (cbId : String)
    (data : JValue) : ControllerState × Option SendRec :=
  let r := s.postMessage "callback" (.callbackD cbId data false)
  (r.1, r.2.1)

/-- Everything one inbound processing step produces besides the new state:
posted messages, fulfilled pending records `(id, error flag, value)`,
event-listener invocations `(listener id, fn, event type, args)`, and an
uncaught thrown error. -/
structure StepResult where
  state : ControllerState
  sent : List SendRec
  fulfilled : List (String × Bool × JValue)
  invoked : List (String × Nat × String × List JValue)
  thrown : Option GlueError
deriving DecidableEq, Repr

/-- A step that drops the message silently. -/
def noEffect (s : ControllerState) : StepResult :=
  { state := s, sent := [], fulfilled := [], invoked := [], thrown := none }

/-- The `for (const [id, record] of listeners)` loop of the
`event.dispatch` case: a `once` listener is deleted from the map right
before its invocation; every listener is invoked with the event and the
arguments, in insertion order.  Returns the remaining entries and the
invocation list. -/
def processListeners (l : List (String × ListenerRecord)) (evType : String)
    (args : List JValue) :
    List (String × ListenerRecord) × List (String × Nat × String × List JValue) :=
  match l with
  | [] => ([], [])
  | (id, r) :: rest =>
      let tail := processListeners rest evType args
      if r.once then (tail.1, (id, r.fn, evType, args) :: tail.2)
      else ((id, r) :: tail.1, (id, r.fn, evType, args) :: tail.2)

/-- Controller.handleMessage.  The `origin` argument is the already
validated event origin.  Handler invocations follow the source's
`this.handler(message).then(reply => this.replyMessage(...))`: a resolved
handler triggers a reply, a rejected one has no continuation attached and
therefore no effect. -/
def handleMessage (h : Option Handler) (s : ControllerState) (m : Payload)
    (origin : String) : StepResult :=
  if m.type = some "init" then
    match m.callbackId with
    | none => { noEffect s with thrown := some (.noCallbackId "init") }
    | some cbId =>
        let s1 := if origin = "null" then { s with origin := "*" } else s
        match h with
        | none => noEffect s1
        | some handler =>
            match handler m with
            | .ok reply =>
                let r := s1.replyMessage cbId reply
                { noEffect r.1 with sent := r.2.toList }
            | .error _ => noEffect s1
  else if m.type = some "callback" then
    match m.data.cbIdOf with
    | none => { noEffect s with thrown := some (.noCallbackId "callback") }
    | some id =>
        if s.callbackTable.contains id then
          { noEffect { s with callbackTable := s.callbackTable.erase id } with
            fulfilled := [(id, m.data.errorOf, m.data.valueOf)] }
        else noEffect s
  else if m.type = some "call" then
    match m.callbackId with
    | none => { noEffect s with thrown := some (.noCallbackId "call") }
    | some cbId =>
        match h with
        | none => noEffect s
        | some handler =>
            match handler m with
            | .ok reply =>
                let r := s.replyMessage cbId reply
                { noEffect r.1 with sent := r.2.toList }
            | .error _ => noEffect s
  else if m.type = some "event.dispatch" then
    match m.callbackId with
    | none => { noEffect s with thrown := some (.noCallbackId "event.dispatch") }
    | some cbId =>
        match m.data.eventTypeOf with
        | none => { noEffect s with thrown := some .noEvent }
        | some evType =>
            let args := m.data.argsOf.getD []
            match alistGet s.eventListenerTable evType with
            | none =>
                let r := s.replyMessage cbId .null
                { noEffect r.1 with sent := r.2.toList }
            | some listeners =>
                let p := processListeners listeners evType args
                let table1 := alistSet s.eventListenerTable evType p.1
                let table2 :=
                  if p.1.isEmpty then alistErase table1 evType else table1
                let r := ControllerState.replyMessage
                  { s with eventListenerTable := table2 } cbId .null
                { noEffect r.1 with sent := r.2.toList, invoked := p.2 }
  else
    match h with
    | none => noEffect s
    | some handler =>
        match handler m with
        | .ok reply =>
            match m.callbackId with
            | some cbId =>
                let r := s.replyMessage cbId reply
                { noEffect r.1 with sent := r.2.toList }
            | none => noEffect s
        | .error _ => noEffect s

/-- An inbound DOM `message` event: the posting window (`null` or a window
identity), the reported origin, and the structured payload. -/
structure GMessageEvent where
  source : Option Nat
  origin : String
  data : Payload
deriving DecidableEq, Repr

/-- The source check `event.source !== this.window`: `event.source` is a
window or `null`, `this.window` a window or `undefined`, so the comparison
succeeds only for two equal windows. -/
def sourceMatches : Option Nat → Option Nat → Bool
  | some a, some b => a == b
  | _, _ => false

/-- Controller.handleMessageEvent: drop on foreign source; drop on an
origin that is neither the sentinel `"null"` nor the expected origin; drop
on a missing marker, version or type; throw on a version above the local
`API_VERSION`; otherwise dispatch to `handleMessage`. -/
def handleMessageEvent (h : Option Handler) (s : ControllerState)
    (e : GMessageEvent) : StepResult :=
  if sourceMatches e.source s.window = false then noEffect s
  else if e.origin ≠ "null" ∧ e.origin ≠ s.origin then noEffect s
  else
    let m := e.data
    match m.v, m.type with
    | some v, some _ =>
        if m.glue = false then noEffect s
        else if API_VERSION < v then
          { noEffect s with thrown := some (.versionsIncompatible v) }
        else handleMessage h s m e.origin
    | _, _ => noEffect s

/-- Controller.attach: fatal after destroy or when a window is already
attached. -/
def ControllerState.attach (s : ControllerState) (w : Nat) :
    Except GlueError ControllerState :=
  if s.destroyed then .error .destroyed
  else if s.window ≠ none then .error .alreadyAttached
  else .ok { s with window := some w }

/-- Controller.detach: clears the window reference only. -/
def ControllerState.detach (s : ControllerState) : ControllerState :=
  { s with window := none }

/-- The `glue.destroy` closure built by `Controller.Glue`: a second call
returns immediately; the first call unregisters the inbound listener, sets
`destroyed`, clears both tables and detaches. -/
def glueDestroy (s : ControllerState) : ControllerState :=
  if s.destroyed then s
  else { s with listening := false, destroyed := true,
                eventListenerTable := [], callbackTable := [],
                window := none }

/-- The `addEventListener` closure built by `Controller.Glue`: fails after
destroy; otherwise appends a listener record under the next listener id. -/
def addEventListener (s : ControllerState) (type : String) (fn : Nat)
    (options : Option Bool) : Except GlueError ControllerState :=
  if s.destroyed then .error .destroyed
  else
    let table :=
      if (alistGet s.eventListenerTable type).isSome then s.eventListenerTable
      else alistSet s.eventListenerTable type []
    let listeners := (alistGet table type).getD []
    let id := Nat.repr (s.eventListenerCounter + 1)
    .ok { s with
          eventListenerCounter := s.eventListenerCounter + 1,
          eventListenerTable :=
            alistSet table type (listeners ++ [(id, ⟨fn, options⟩)]) }

/-- The `dispatchEvent` closure built by `Controller.Glue`: fails after
destroy; fails with an unknown-event error when the type was not declared;
otherwise posts an `event.dispatch` envelope. -/
def dispatchEvent (s : ControllerState) (evType : String)
    (args : List JValue) : ControllerState × Option SendRec × Option GlueError :=
  if s.destroyed then (s, none, some .destroyed)
  else
    match s.events with
    | none => (s, none, some (.unknownEvent evType))
    | some evs =>
        if evs.contains evType then
          s.postMessage "event.dispatch" (.eventD evType (some args))
        else (s, none, some (.unknownEvent evType))

/-- Controller.callAction, backing every proxy entry of the negotiated
remote API: posts a `call` envelope with the action and arguments. -/
def callAction (s : ControllerState) (action : String) (args : List JValue) :
    ControllerState × Option SendRec × Option GlueError :=
  s.postMessage "call" (.callD action (some args))

/-- Declared feature implementations: an argument list to a promise
outcome (throwing handlers reject). -/
def FeatureFn := List JValue → HandlerResult

/-- Feature-map lookup `features[data.action]`. -/
def lookupA (l : List (String × FeatureFn)) (k : String) : Option FeatureFn :=
  match l with
  | [] => none
  | (k1, v) :: rest => if k1 = k then some v else lookupA rest k

/-- The message handler installed by `enable` in `src/index.ts` (the
`call` branch of the `embed` handler is identical): a `call` looks the
action up in the declared feature map, throwing an unknown-action error
when absent, and otherwise applies the handler to the supplied arguments;
any other message type falls through to a debug log and resolves with
`undefined`. -/
def featuresCallHandler (features : List (String × FeatureFn)) : Handler :=
  fun m =>
    if m.type = some "call" then
      match m.data.actionOf with
      | none => .error (.error "unknown action: undefined")
      | some action =>
          match lookupA features action with
          | none => .error (.error ("unknown action: " ++ action))
          | some f => f (m.data.argsOf.getD [])
    else .ok .null

/-- State of the legacy `Glue` class of the earlier revision (the class
that still owns `handleMessage` itself and carries the `initialized`
re-entrancy guard).  Its window is fixed at construction, so posting never
fails. -/
structure LegacyState where
  origin : String
  initialized : Bool
  callbackCounter : Nat
  callbackTable : List String
deriving DecidableEq, Repr

/-- Effects of one legacy processing step. -/
structure LegacyResult where
  state : LegacyState
  sent : List SendRec
  fulfilled : List (String × Bool × JValue)
  thrown : Option GlueError
deriving DecidableEq, Repr

/-- Legacy Glue.postMessage: same envelope construction and pending-record
insertion as the Controller, but without an attachment check. -/
def LegacyState.post (s : LegacyState) (type : String) (data : MsgData) :
    LegacyState × SendRec :=
  let id := Nat.repr (s.callbackCounter + 1)
  let msg : Payload :=
    { v := some API_VERSION, glue := true, type := some type,
      data := data, callbackId := some id }
  ({ s with callbackCounter := s.callbackCounter + 1,
            callbackTable := s.callbackTable ++ [id] },
   ⟨msg, s.origin⟩)

/-- Legacy Glue.replyMessage. -/
def LegacyState.reply (s : LegacyState) (cbId : String) (data : JValue) :
    LegacyState × SendRec :=
  s.post "callback" (.callbackD cbId data false)

/-- A legacy step that drops the message silently. -/
def legacyNoEffect (s : LegacyState) : LegacyResult :=
  { state := s, sent := [], fulfilled := [], thrown := none }

/-- Legacy Glue.handleMessage: identical to the Controller's except that
the `init` case throws `glue is already initialized` when a first `init`
was already processed and otherwise sets the `initialized` flag, and there
is no `event.dispatch` case. -/
def legacyHandleMessage (h : Option Handler) (s : LegacyState) (m : Payload) :
    LegacyResult :=
  if m.type = some "init" then
    if s.initialized then
      { legacyNoEffect s with thrown := some .alreadyInitialized }
    else
      match m.callbackId with
      | none => { legacyNoEffect s with thrown := some (.noCallbackId "init") }
      | some cbId =>
          let s1 := { s with initialized := true }
          match h with
          | none => legacyNoEffect s1
          | some handler =>
              match handler m with
              | .ok reply =>
                  let r := s1.reply cbId reply
                  { legacyNoEffect r.1 with sent := [r.2] }
              | .error _ => legacyNoEffect s1
  else if m.type = some "callback" then
    match m.data.cbIdOf with
    | none => { legacyNoEffect s with thrown := some (.noCallbackId "callback") }
    | some id =>
        if s.callbackTable.contains id then
          { legacyNoEffect { s with callbackTable := s.callbackTable.erase id } with
            fulfilled := [(id, m.data.errorOf, m.data.valueOf)] }
        else legacyNoEffect s
  else if m.type = some "call" then
    match m.callbackId with
    | none => { legacyNoEffect s with thrown := some (.noCallbackId "call") }
    | some cbId =>
        match h with
        | none => legacyNoEffect s
        | some handler =>
            match handler m with
            | .ok reply =>
                let r := s.reply cbId reply
                { legacyNoEffect r.1 with sent := [r.2] }
            | .error _ => legacyNoEffect s
  else
    match h with
    | none => legacyNoEffect s
    | some handler =>
        match handler m with
        | .ok reply =>
            match m.callbackId with
            | some cbId =>
                let r := s.reply cbId reply
                { legacyNoEffect r.1 with sent := [r.2] }
            | none => legacyNoEffect s
        | .error _ => legacyNoEffect s

/-- The embedder's reply to `init` as observed by the enable path
(`IInitData`): its feature list and error flag. -/
structure InitReplyData where
  features : List String
  error : Bool
deriving DecidableEq, Repr

/-- Events driving the `enable` continuation of `src/index.ts`: the
initialization timer firing, the `init` reply callback resolving (with
`none` for a resolution without data), and the acknowledgment of the
posted `ready` envelope. -/
inductive EnableEvent where
  | timerFires
  | initReply (d : Option InitReplyData)
  | readyAck
deriving DecidableEq, Repr

deriving instance DecidableEq for Except

/-- State of one `enable(...)` invocation after attaching: its controller,
the `failed` flag, whether the timeout timer is still pending, whether a
`ready` envelope has been posted and awaits acknowledgment, and the
settlement of the promise returned to the caller (`ok` carries the glue
facade, abstracted to a tag). -/
structure EnableState where
  ctrl : ControllerState
  failed : Bool
  timerActive : Bool
  pendingReady : Bool
  outcome : Option (Except GlueError Nat)
deriving DecidableEq, Repr

/-- Settling a promise: the first settlement wins, later ones are ignored. -/
def settle (o : Option (Except GlueError Nat)) (r : Except GlueError Nat) :
    Option (Except GlueError Nat) :=
  match o with
  | none => some r
  | some x => some x

/-- One step of the `enable` continuation (modelled with no `onInit` or
`onBeforeReady` hook and no initial action configured, matching an
`enable` call without those options).  The timer sets the terminal
`failed` flag and rejects with the timeout error; the `init` reply first
cancels the timer and does nothing further when `failed` is set, rejects
on missing or error-flagged data, and otherwise posts `ready`; the `ready`
acknowledgment resolves the promise with the facade. -/
def enableStep (s : EnableState) (e : EnableEvent) :
    EnableState × List SendRec :=
  match e with
  | .timerFires =>
      if s.timerActive then
        ({ s with timerActive := false, failed := true,
                  outcome := settle s.outcome (.error .timeout) }, [])
      else (s, [])
  | .initReply d =>
      let s1 := { s with timerActive := false }
      if s.failed then (s1, [])
      else
        match d with
        | none => ({ s1 with outcome := settle s1.outcome (.error .initError) }, [])
        | some data =>
            if data.error then
              ({ s1 with outcome := settle s1.outcome (.error .initError) }, [])
            else
              let r := s1.ctrl.postMessage "ready" (.readyD true false .null)
              ({ s1 with ctrl := r.1, pendingReady := true }, r.2.1.toList)
  | .readyAck =>
      if s.pendingReady then
        ({ s with pendingReady := false,
                  outcome := settle s.outcome (.ok 1) }, [])
      else (s, [])

/-- A two-binding system: controllers `a` and `b`, the queues of messages
in flight in each direction, the log of every message each side ever
posted, and the log of every pending-record fulfillment on side `a`. -/
structure Sys where
  a : ControllerState
  b : ControllerState
  queueAB : List Payload
  queueBA : List Payload
  logA : List Payload
  logB : List Payload
  fulA : List (String × Bool × JValue)
deriving DecidableEq, Repr

/-- Side `a` posts an envelope (an `init`, `ready`, `call` or
`event.dispatch` send through `Controller.postMessage`). -/
def sysSendA (sys : Sys) (t : String) (d : MsgData) : Sys :=
  let r := sys.a.postMessage t d
  match r.2.1 with
  | some sr =>
      { sys with a := r.1, queueAB := sys.queueAB ++ [sr.payload],
                 logA := sys.logA ++ [sr.payload] }
  | none => sys

/-- Side `b` posts an envelope. -/
def sysSendB (sys : Sys) (t : String) (d : MsgData) : Sys :=
  let r := sys.b.postMessage t d
  match r.2.1 with
  | some sr =>
      { sys with b := r.1, queueBA := sys.queueBA ++ [sr.payload],
                 logB := sys.logB ++ [sr.payload] }
  | none => sys

/-- Side `a` receives the next in-flight envelope as a message event with
the given source and origin. -/
def sysDeliverA (hA : Option Handler) (sys : Sys) (src : Option Nat)
    (orig : String) : Sys :=
  match sys.queueBA with
  | [] => sys
  | m :: rest =>
      let r := handleMessageEvent hA sys.a ⟨src, orig, m⟩
      { sys with a := r.state, queueBA := rest,
                 queueAB := sys.queueAB ++ r.sent.map SendRec.payload,
                 logA := sys.logA ++ r.sent.map SendRec.payload,
                 fulA := sys.fulA ++ r.fulfilled }

/-- Side `b` receives the next in-flight envelope. -/
def sysDeliverB (hB : Option Handler) (sys : Sys) (src : Option Nat)
    (orig : String) : Sys :=
  match sys.queueAB with
  | [] => sys
  | m :: rest =>
      let r := handleMessageEvent hB sys.b ⟨src, orig, m⟩
      { sys with b := r.state, queueAB := rest,
                 queueBA := sys.queueBA ++ r.sent.map SendRec.payload,
                 logB := sys.logB ++ r.sent.map SendRec.payload }

/-- Side `a` registers an event listener. -/
def sysListenA (sys : Sys) (t : String) (fn : Nat) (opts : Option Bool) : Sys :=
  match addEventListener sys.a t fn opts with
  | .ok a1 => { sys with a := a1 }
  | .error _ => sys

/-- Protocol steps between two live bindings: spontaneous (non-`callback`)
sends on either side — `callback` envelopes arise only as replies inside
`handleMessage` — adversarial delivery of in-flight envelopes with any
claimed source and origin, listener registration, and detach/attach on
side `a`. -/
inductive SysStep (hA hB : Option Handler) : Sys → Sys → Prop
  | sendA (sys : Sys) (t : String) (d : MsgData) :
      t ≠ "callback" → SysStep hA hB sys (sysSendA sys t d)
  | sendB (sys : Sys) (t : String) (d : MsgData) :
      t ≠ "callback" → SysStep hA hB sys (sysSendB sys t d)
  | deliverA (sys : Sys) (src : Option Nat) (orig : String) :
      SysStep hA hB sys (sysDeliverA hA sys src orig)
  | deliverB (sys : Sys) (src : Option Nat) (orig : String) :
      SysStep hA hB sys (sysDeliverB hB sys src orig)
  | listenA (sys : Sys) (t : String) (fn : Nat) (opts : Option Bool) :
      SysStep hA hB sys (sysListenA sys t fn opts)
  | detachA (sys : Sys) :
      SysStep hA hB sys { sys with a := sys.a.detach }
  | attachA (sys : Sys) (w : Nat) (a1 : ControllerState) :
      sys.a.attach w = .ok a1 → SysStep hA hB sys { sys with a := a1 }

/-- An initial two-binding system: empty tables and queues, side `a`
attached to window 1 and side `b` to window 0. -/
def sysInit (originA originB : String) (evA evB : Option (List String)) : Sys :=
  { a := { origin := originA, callbackCounter := 0, callbackTable := [],
           eventListenerCounter := 0, eventListenerTable := [],
           events := evA, window := some 1, destroyed := false,
           listening := true },
    b := { origin := originB, callbackCounter := 0, callbackTable := [],
           eventListenerCounter := 0, eventListenerTable := [],
           events := evB, window := some 0, destroyed := false,
           listening := true },
    queueAB := [], queueBA := [], logA := [], logB := [], fulA := [] }

/-- Envelopes of a log that are `callback` replies carrying the given
correlation id. -/
def isReplyWith (id : String) (p : Payload) : Prop :=
  p.type = some "callback" ∧ p.callbackId = some id

/-- Envelopes of a log that could ever be answered by a peer reply
targeting the given id: non-`callback` envelopes with that envelope id. -/
def isAnswerableWith (id : String) (p : Payload) : Prop :=
  p.type ≠ some "callback" ∧ p.callbackId = some id

/-- Numeric value of a decimal digit character. -/
def decDigit (c : Char) : Nat := c.toNat - 48

/-- Decimal decoding of a character list onto an accumulator, used to
invert `Nat.repr`. -/
def decodeFrom (a : Nat) (ds : List Char) : Nat :=
  ds.foldl (fun x c => x * 10 + decDigit c) a

/-- Invariant of the two-binding system tying side `a`'s Callback Registry
to the message logs: posted correlation ids are the counter values in
order; in-flight `callback` envelopes towards `a` only target ids of
non-`callback` envelopes `a` posted; every `callback` reply `a` posted
still has its pending record; and `a`'s fulfillments only ever concerned
ids of non-`callback` envelopes. -/
structure SysInv (sys : Sys) : Prop where
  boundA : ∀ p ∈ sys.logA, ∃ k, 1 ≤ k ∧ k ≤ sys.a.callbackCounter ∧
    p.callbackId = some (Nat.repr k)
  distinctA : (sys.logA.map Payload.callbackId).Pairwise (· ≠ ·)
  qAB : ∀ p ∈ sys.queueAB, p ∈ sys.logA
  qBA : ∀ p ∈ sys.queueBA, p.type = some "callback" →
    ∀ id, p.data.cbIdOf = some id → ∃ q ∈ sys.logA, isAnswerableWith id q
  tableA : ∀ id, (∃ p ∈ sys.logA, isReplyWith id p) → id ∈ sys.a.callbackTable
  fulIdsA : ∀ f ∈ sys.fulA, ∃ q ∈ sys.logA, isAnswerableWith f.1 q

instance (id : String) (p : Payload) : Decidable (isReplyWith id p) := by
  unfold isReplyWith; infer_instance

instance (id : String) (p : Payload) : Decidable (isAnswerableWith id p) := by
  unfold isAnswerableWith; infer_instance

/-- A declared feature map with a single `echo` feature returning its first
argument. -/
def testFeatures : List (String × FeatureFn) :=
  [("echo", fun args => Except.ok (args.headD .null))]

/-- The handler installed for `testFeatures`. -/
def testHandler : Option Handler := some (featuresCallHandler testFeatures)

/-- A freshly constructed controller bound to expected origin
`https://host.example` and attached to window 7. -/
def testState : ControllerState :=
  { origin := "https://host.example", callbackCounter := 0,
    callbackTable := [], eventListenerCounter := 0,
    eventListenerTable := [], events := some ["glue.visibilitychange"],
    window := some 7, destroyed := false, listening := true }

/-- A `call` envelope as constructed by the peer's `postMessage`. -/
def callPayload (action : String) (xs : List JValue) (cb : String) : Payload :=
  ⟨some 0, true, some "call", .callD action (some xs), some cb⟩

/-- An `init` envelope as constructed by the peer's `postMessage`. -/
def initPayload (cb : String) : Payload :=
  ⟨some 0, true, some "init", .initD [] false, some cb⟩

/-- An `event.dispatch` envelope as constructed by the peer's
`postMessage`. -/
def eventPayload (t : String) (xs : List JValue) (cb : String) : Payload :=
  ⟨some 0, true, some "event.dispatch", .eventD t (some xs), some cb⟩

/-- The enable-path state right after `controller.attach` and the start of
the timeout timer. -/
def enableStart (c : ControllerState) : EnableState :=
  { ctrl := c, failed := false, timerActive := true, pendingReady := false,
    outcome := none }

/-- A legacy binding that has not yet processed an `init`. -/
def legacyFresh : LegacyState :=
  { origin := "https://host.example", initialized := false,
    callbackCounter := 0, callbackTable := [] }

theorem decodeFrom_nil (a : Nat) : decodeFrom a [] = a := rfl

theorem decodeFrom_cons (a : Nat) (c : Char) (ds : List Char) :
    decodeFrom a (c :: ds) = decodeFrom (a * 10 + decDigit c) ds := rfl

theorem decDigit_digitChar (m : Nat) (hm : m < 10) :
    decDigit (Nat.digitChar m) = m := by
  interval_cases m <;> rfl

theorem toDigitsCore_decode :
    ∀ (fuel n : Nat), n < 10 ^ fuel →
      ∃ k, ∀ (ds : List Char) (a : Nat),
        decodeFrom a (Nat.toDigitsCore 10 fuel n ds)
          = decodeFrom (a * 10 ^ k + n) ds := by
  intro fuel
  induction fuel with
  | zero =>
      intro n hn
      interval_cases n
      exact ⟨0, fun ds a => by simp [Nat.toDigitsCore]⟩
  | succ f ih =>
      intro n hn
      by_cases h10 : n / 10 = 0
      · have hn10 : n < 10 := by omega
        refine ⟨1, fun ds a => ?_⟩
        have hstep : Nat.toDigitsCore 10 (f + 1) n ds
            = Nat.digitChar (n % 10) :: ds := by
          simp [Nat.toDigitsCore, h10]
        rw [hstep, decodeFrom_cons,
          decDigit_digitChar _ (Nat.mod_lt _ (by norm_num)),
          Nat.mod_eq_of_lt hn10]
        norm_num
      · have hb : n / 10 < 10 ^ f := by
          rw [Nat.div_lt_iff_lt_mul (by norm_num : 0 < 10)]
          calc n < 10 ^ (f + 1) := hn
            _ = 10 ^ f * 10 := by ring
        obtain ⟨k, hk⟩ := ih (n / 10) hb
        refine ⟨k + 1, fun ds a => ?_⟩
        have hstep : Nat.toDigitsCore 10 (f + 1) n ds
            = Nat.toDigitsCore 10 f (n / 10) (Nat.digitChar (n % 10) :: ds) := by
          simp [Nat.toDigitsCore, h10]
        rw [hstep, hk, decodeFrom_cons,
          decDigit_digitChar _ (Nat.mod_lt _ (by norm_num))]
        congr 1
        have hdm : 10 * (n / 10) + n % 10 = n := Nat.div_add_mod n 10
        calc (a * 10 ^ k + n / 10) * 10 + n % 10
            = a * (10 ^ k * 10) + (10 * (n / 10) + n % 10) := by ring
          _ = a * 10 ^ (k + 1) + n := by rw [hdm, pow_succ]

theorem decodeFrom_toDigits (n : Nat) : decodeFrom 0 (Nat.toDigits 10 n) = n := by
  have hbound : n < 10 ^ (n + 1) := by
    calc n < 10 ^ n := Nat.lt_pow_self (by norm_num) n
      _ ≤ 10 ^ (n + 1) := Nat.pow_le_pow_right (by norm_num) (Nat.le_succ n)
  obtain ⟨k, hk⟩ := toDigitsCore_decode (n + 1) n hbound
  have hres := hk [] 0
  simpa [Nat.toDigits, decodeFrom_nil] using hres

theorem reprNat_injective {m n : Nat} (h : Nat.repr m = Nat.repr n) : m = n := by
  have hds : Nat.toDigits 10 m = Nat.toDigits 10 n := congrArg String.data h
  calc m = decodeFrom 0 (Nat.toDigits 10 m) := (decodeFrom_toDigits m).symm
    _ = decodeFrom 0 (Nat.toDigits 10 n) := by rw [hds]
    _ = n := decodeFrom_toDigits n

theorem reprNat_ne {m n : Nat} (h : m ≠ n) : Nat.repr m ≠ Nat.repr n :=
  fun he => h (reprNat_injective he)

theorem replyMessage_shape (s1 : ControllerState) (cbId : String) (reply : JValue) :
    ((s1.replyMessage cbId reply).1.callbackCounter = s1.callbackCounter ∧
     (s1.replyMessage cbId reply).1.callbackTable = s1.callbackTable ∧
     (s1.replyMessage cbId reply).2.toList = [])
  ∨ ((s1.replyMessage cbId reply).1.callbackCounter = s1.callbackCounter + 1 ∧
     (s1.replyMessage cbId reply).1.callbackTable
       = s1.callbackTable ++ [Nat.repr (s1.callbackCounter + 1)] ∧
     (s1.replyMessage cbId reply).2.toList
       = [⟨⟨some API_VERSION, true, some "callback", .callbackD cbId reply false,
            some (Nat.repr (s1.callbackCounter + 1))⟩, s1.origin⟩]) := by
  cases hw : s1.window with
  | none =>
      left
      simp [ControllerState.replyMessage, ControllerState.postMessage, hw]
  | some w =>
      right
      simp [ControllerState.replyMessage, ControllerState.postMessage, hw]

theorem handleMessage_shape (h : Option Handler) (s : ControllerState)
    (m : Payload) (orig : String) :
    ((handleMessage h s m orig).state.callbackCounter = s.callbackCounter ∧
     (handleMessage h s m orig).state.callbackTable = s.callbackTable ∧
     (handleMessage h s m orig).sent = [] ∧
     (handleMessage h s m orig).fulfilled = [])
  ∨ (∃ id, m.type = some "callback" ∧ m.data.cbIdOf = some id ∧
     id ∈ s.callbackTable ∧
     (handleMessage h s m orig).state.callbackCounter = s.callbackCounter ∧
     (handleMessage h s m orig).state.callbackTable = s.callbackTable.erase id ∧
     (handleMessage h s m orig).sent = [] ∧
     (handleMessage h s m orig).fulfilled = [(id, m.data.errorOf, m.data.valueOf)])
  ∨ (∃ tgt reply o, m.type ≠ some "callback" ∧ m.callbackId = some tgt ∧
     (handleMessage h s m orig).state.callbackCounter = s.callbackCounter + 1 ∧
     (handleMessage h s m orig).state.callbackTable
       = s.callbackTable ++ [Nat.repr (s.callbackCounter + 1)] ∧
     (handleMessage h s m orig).sent
       = [⟨⟨some API_VERSION, true, some "callback",
            .callbackD tgt reply false, some (Nat.repr (s.callbackCounter + 1))⟩, o⟩] ∧
     (handleMessage h s m orig).fulfilled = []) := by
  by_cases h1 : m.type = some "init"
  case pos =>
    cases hcb : m.callbackId with
    | none => left; simp [handleMessage, h1, hcb, noEffect]
    | some cbId =>
        cases hh : h with
        | none =>
            left
            by_cases ho : orig = "null" <;>
              simp [handleMessage, h1, hcb, hh, ho, noEffect]
        | some handler =>
            cases hr : handler m with
            | ok reply =>
                cases hw : s.window with
                | none =>
                    left
                    by_cases ho : orig = "null" <;>
                      simp [handleMessage, h1, hcb, hh, hr, ho, noEffect,
                        ControllerState.replyMessage, ControllerState.postMessage, hw]
                | some w =>
                    right; right
                    by_cases ho : orig = "null"
                    · exact ⟨cbId, reply, "*", by rw [h1]; decide, rfl, by
                        simp [handleMessage, h1, hcb, hh, hr, ho, noEffect,
                          ControllerState.replyMessage, ControllerState.postMessage, hw]⟩
                    · exact ⟨cbId, reply, s.origin, by rw [h1]; decide, rfl, by
                        simp [handleMessage, h1, hcb, hh, hr, ho, noEffect,
                          ControllerState.replyMessage, ControllerState.postMessage, hw]⟩
            | error e =>
                left
                by_cases ho : orig = "null" <;>
                  simp [handleMessage, h1, hcb, hh, hr, ho, noEffect]
  case neg =>
  by_cases h2 : m.type = some "callback"
  case pos =>
    cases hdid : m.data.cbIdOf with
    | none => left; simp [handleMessage, h1, h2, hdid, noEffect]
    | some id =>
        by_cases hmem : id ∈ s.callbackTable
        · right; left
          refine ⟨id, h2, rfl, hmem, ?_⟩
          simp [handleMessage, h1, h2, hdid, hmem, noEffect]
        · left
          simp [handleMessage, h1, h2, hdid, hmem, noEffect]
  case neg =>
  by_cases h3 : m.type = some "call"
  case pos =>
    cases hcb : m.callbackId with
    | none => left; simp [handleMessage, h1, h2, h3, hcb, noEffect]
    | some cbId =>
        cases hh : h with
        | none => left; simp [handleMessage, h1, h2, h3, hcb, hh, noEffect]
        | some handler =>
            cases hr : handler m with
            | ok reply =>
                cases hw : s.window with
                | none =>
                    left
                    simp [handleMessage, h1, h2, h3, hcb, hh, hr, noEffect,
                      ControllerState.replyMessage, ControllerState.postMessage, hw]
                | some w =>
                    right; right
                    exact ⟨cbId, reply, s.origin, by rw [h3]; decide, rfl, by
                      simp [handleMessage, h1, h2, h3, hcb, hh, hr, noEffect,
                        ControllerState.replyMessage, ControllerState.postMessage, hw]⟩
            | error e =>
                left; simp [handleMessage, h1, h2, h3, hcb, hh, hr, noEffect]
  case neg =>
  by_cases h4 : m.type = some "event.dispatch"
  case pos =>
    cases hcb : m.callbackId with
    | none => left; simp [handleMessage, h1, h2, h3, h4, hcb, noEffect]
    | some cbId =>
        cases hev : m.data.eventTypeOf with
        | none => left; simp [handleMessage, h1, h2, h3, h4, hcb, hev, noEffect]
        | some evType =>
            cases hlk : alistGet s.eventListenerTable evType with
            | none =>
                cases hw : s.window with
                | none =>
                    left
                    simp [handleMessage, h1, h2, h3, h4, hcb, hev, hlk, noEffect,
                      ControllerState.replyMessage, ControllerState.postMessage, hw]
                | some w =>
                    right; right
                    exact ⟨cbId, .null, s.origin, by rw [h4]; decide, rfl, by
                      simp [handleMessage, h1, h2, h3, h4, hcb, hev, hlk, noEffect,
                        ControllerState.replyMessage, ControllerState.postMessage, hw]⟩
            | some listeners =>
                cases hw : s.window with
                | none =>
                    left
                    simp [handleMessage, h1, h2, h3, h4, hcb, hev, hlk, noEffect,
                      ControllerState.replyMessage, ControllerState.postMessage, hw]
                | some w =>
                    right; right
                    exact ⟨cbId, .null, s.origin, by rw [h4]; decide, rfl, by
                      simp [handleMessage, h1, h2, h3, h4, hcb, hev, hlk, noEffect,
                        ControllerState.replyMessage, ControllerState.postMessage, hw]⟩
  case neg =>
    cases hh : h with
    | none => left; simp [handleMessage, h1, h2, h3, h4, hh, noEffect]
    | some handler =>
        cases hr : handler m with
        | ok reply =>
            cases hcb : m.callbackId with
            | none => left; simp [handleMessage, h1, h2, h3, h4, hh, hr, hcb, noEffect]
            | some cbId =>
                cases hw : s.window with
                | none =>
                    left
                    simp [handleMessage, h1, h2, h3, h4, hh, hr, hcb, noEffect,
                      ControllerState.replyMessage, ControllerState.postMessage, hw]
                | some w =>
                    right; right
                    exact ⟨cbId, reply, s.origin, h2, rfl, by
                      simp [handleMessage, h1, h2, h3, h4, hh, hr, hcb, noEffect,
                        ControllerState.replyMessage, ControllerState.postMessage, hw]⟩
        | error e =>
            left; simp [handleMessage, h1, h2, h3, h4, hh, hr, noEffect]

theorem handleMessageEvent_shape (h : Option Handler) (s : ControllerState)
    (e : GMessageEvent) :
    ((handleMessageEvent h s e).state.callbackCounter = s.callbackCounter ∧
     (handleMessageEvent h s e).state.callbackTable = s.callbackTable ∧
     (handleMessageEvent h s e).sent = [] ∧
     (handleMessageEvent h s e).fulfilled = [])
  ∨ (∃ id, e.data.type = some "callback" ∧ e.data.data.cbIdOf = some id ∧
     id ∈ s.callbackTable ∧
     (handleMessageEvent h s e).state.callbackCounter = s.callbackCounter ∧
     (handleMessageEvent h s e).state.callbackTable = s.callbackTable.erase id ∧
     (handleMessageEvent h s e).sent = [] ∧
     (handleMessageEvent h s e).fulfilled
       = [(id, e.data.data.errorOf, e.data.data.valueOf)])
  ∨ (∃ tgt reply o, e.data.type ≠ some "callback" ∧ e.data.callbackId = some tgt ∧
     (handleMessageEvent h s e).state.callbackCounter = s.callbackCounter + 1 ∧
     (handleMessageEvent h s e).state.callbackTable
       = s.callbackTable ++ [Nat.repr (s.callbackCounter + 1)] ∧
     (handleMessageEvent h s e).sent
       = [⟨⟨some API_VERSION, true, some "callback",
            .callbackD tgt reply false, some (Nat.repr (s.callbackCounter + 1))⟩, o⟩] ∧
     (handleMessageEvent h s e).fulfilled = []) := by
  by_cases hs : sourceMatches e.source s.window = false
  · left; simp [handleMessageEvent, hs, noEffect]
  · by_cases ho : e.origin ≠ "null" ∧ e.origin ≠ s.origin
    · left; simp [handleMessageEvent, hs, ho, noEffect]
    · cases hv : e.data.v with
      | none => left; simp [handleMessageEvent, hs, ho, hv, noEffect]
      | some v =>
          cases hty : e.data.type with
          | none => left; simp [handleMessageEvent, hs, ho, hv, hty, noEffect]
          | some t =>
              by_cases hg : e.data.glue = false
              · left; simp [handleMessageEvent, hs, ho, hv, hty, hg, noEffect]
              · by_cases hver : API_VERSION < v
                · left; simp [handleMessageEvent, hs, ho, hv, hty, hg, hver, noEffect]
                · have heq : handleMessageEvent h s e
                      = handleMessage h s e.data e.origin := by
                    simp [handleMessageEvent, hs, ho, hv, hty, hg, hver]
                  rw [heq, ← hty]
                  exact handleMessage_shape h s e.data e.origin

theorem distinct_same_id {l : List Payload}
    (hd : (l.map Payload.callbackId).Pairwise (· ≠ ·))
    {p q : Payload} (hp : p ∈ l) (hq : q ∈ l)
    (hpq : p.callbackId = q.callbackId) : p = q := by
  by_contra hne
  rw [List.pairwise_map] at hd
  exact (hd.forall (fun x y hxy => hxy.symm) hp hq hne) hpq

theorem not_reply_and_answerable {l : List Payload}
    (hd : (l.map Payload.callbackId).Pairwise (· ≠ ·)) {id : String}
    (hr : ∃ p ∈ l, isReplyWith id p) (ha : ∃ q ∈ l, isAnswerableWith id q) :
    False := by
  obtain ⟨p, hp, hpt, hpi⟩ := hr
  obtain ⟨q, hq, hqt, hqi⟩ := ha
  have hpq : p = q := distinct_same_id hd hp hq (by rw [hpi, hqi])
  exact hqt (hpq ▸ hpt)

theorem distinct_append_fresh {l : List Payload} {p : Payload} {c : Nat}
    (hd : (l.map Payload.callbackId).Pairwise (· ≠ ·))
    (hb : ∀ q ∈ l, ∃ k, 1 ≤ k ∧ k ≤ c ∧ q.callbackId = some (Nat.repr k))
    (hp : p.callbackId = some (Nat.repr (c + 1))) :
    (((l ++ [p]).map Payload.callbackId).Pairwise (· ≠ ·)) := by
  rw [List.map_append, List.pairwise_append]
  refine ⟨hd, List.pairwise_singleton _ _, ?_⟩
  intro x hx y hy
  rw [List.mem_map] at hx
  obtain ⟨q, hq, rfl⟩ := hx
  simp only [List.map_cons, List.map_nil, List.mem_singleton] at hy
  subst hy
  obtain ⟨k, hk1, hkc, hqi⟩ := hb q hq
  rw [hqi, hp]
  intro hcon
  have : Nat.repr k = Nat.repr (c + 1) := by injection hcon
  exact absurd (reprNat_injective this) (by omega)

theorem addEventListener_fields {s a1 : ControllerState} {t : String}
    {fn : Nat} {opts : Option Bool}
    (h : addEventListener s t fn opts = .ok a1) :
    a1.callbackCounter = s.callbackCounter ∧
    a1.callbackTable = s.callbackTable := by
  by_cases hdes : s.destroyed
  · simp [addEventListener, hdes] at h
  · simp only [addEventListener, hdes] at h
    simp only [Bool.false_eq_true, if_false, Except.ok.injEq] at h
    subst h
    exact ⟨rfl, rfl⟩

theorem attach_fields {s a1 : ControllerState} {w : Nat}
    (h : s.attach w = .ok a1) :
    a1.callbackCounter = s.callbackCounter ∧
    a1.callbackTable = s.callbackTable := by
  by_cases hdes : s.destroyed
  · simp [ControllerState.attach, hdes] at h
  · by_cases hw : s.window = none
    · simp only [ControllerState.attach, hdes, hw] at h
      simp only [Bool.false_eq_true, if_false, ne_eq, not_true_eq_false,
        Except.ok.injEq, reduceIte] at h
      subst h
      exact ⟨rfl, rfl⟩
    · simp [ControllerState.attach, hdes, hw] at h

theorem sysInv_sendA {sys : Sys} (inv : SysInv sys) (t : String) (d : MsgData)
    (ht : t ≠ "callback") : SysInv (sysSendA sys t d) := by
  cases hw : sys.a.window with
  | none =>
      have heq : sysSendA sys t d = sys := by
        simp [sysSendA, ControllerState.postMessage, hw]
      rw [heq]; exact inv
  | some w =>
      have heq : sysSendA sys t d =
          { sys with
            a := { sys.a with
                   callbackCounter := sys.a.callbackCounter + 1,
                   callbackTable := sys.a.callbackTable
                     ++ [Nat.repr (sys.a.callbackCounter + 1)] },
            queueAB := sys.queueAB
              ++ [⟨some API_VERSION, true, some t, d,
                   some (Nat.repr (sys.a.callbackCounter + 1))⟩],
            logA := sys.logA
              ++ [⟨some API_VERSION, true, some t, d,
                   some (Nat.repr (sys.a.callbackCounter + 1))⟩] } := by
        simp [sysSendA, ControllerState.postMessage, hw]
      rw [heq]
      constructor
      · intro p hp
        rcases List.mem_append.mp hp with hold | hnew
        · obtain ⟨k, hk1, hk2, hk3⟩ := inv.boundA p hold
          exact ⟨k, hk1, le_trans hk2 (Nat.le_succ _), hk3⟩
        · rw [List.mem_singleton] at hnew
          subst hnew
          exact ⟨sys.a.callbackCounter + 1, Nat.le_add_left 1 _, le_refl _, rfl⟩
      · exact distinct_append_fresh inv.distinctA inv.boundA rfl
      · intro p hp
        rcases List.mem_append.mp hp with hold | hnew
        · exact List.mem_append.mpr (Or.inl (inv.qAB p hold))
        · exact List.mem_append.mpr (Or.inr hnew)
      · intro p hp hpt id hpid
        obtain ⟨q, hq, hqa⟩ := inv.qBA p hp hpt id hpid
        exact ⟨q, List.mem_append.mpr (Or.inl hq), hqa⟩
      · intro id hrep
        obtain ⟨p, hp, hpt, hpi⟩ := hrep
        rcases List.mem_append.mp hp with hold | hnew
        · exact List.mem_append.mpr (Or.inl (inv.tableA id ⟨p, hold, hpt, hpi⟩))
        · rw [List.mem_singleton] at hnew
          subst hnew
          exact absurd (show t = "callback" by simpa [isReplyWith] using hpt) ht
      · intro f hf
        obtain ⟨q, hq, hqa⟩ := inv.fulIdsA f hf
        exact ⟨q, List.mem_append.mpr (Or.inl hq), hqa⟩

theorem sysInv_sendB {sys : Sys} (inv : SysInv sys) (t : String) (d : MsgData)
    (ht : t ≠ "callback") : SysInv (sysSendB sys t d) := by
  cases hw : sys.b.window with
  | none =>
      have heq : sysSendB sys t d = sys := by
        simp [sysSendB, ControllerState.postMessage, hw]
      rw [heq]; exact inv
  | some w =>
      have heq : sysSendB sys t d =
          { sys with
            b := { sys.b with
                   callbackCounter := sys.b.callbackCounter + 1,
                   callbackTable := sys.b.callbackTable
                     ++ [Nat.repr (sys.b.callbackCounter + 1)] },
            queueBA := sys.queueBA
              ++ [⟨some API_VERSION, true, some t, d,
                   some (Nat.repr (sys.b.callbackCounter + 1))⟩],
            logB := sys.logB
              ++ [⟨some API_VERSION, true, some t, d,
                   some (Nat.repr (sys.b.callbackCounter + 1))⟩] } := by
        simp [sysSendB, ControllerState.postMessage, hw]
      rw [heq]
      constructor
      · exact inv.boundA
      · exact inv.distinctA
      · exact inv.qAB
      · intro p hp hpt id hpid
        rcases List.mem_append.mp hp with hold | hnew
        · exact inv.qBA p hold hpt id hpid
        · rw [List.mem_singleton] at hnew
          subst hnew
          exact absurd (show t = "callback" by simpa using hpt) ht
      · exact inv.tableA
      · exact inv.fulIdsA

theorem sysInv_deliverB {hB : Option Handler} {sys : Sys} (inv : SysInv sys)
    (src : Option Nat) (orig : String) : SysInv (sysDeliverB hB sys src orig) := by
  cases hq : sys.queueAB with
  | nil =>
      have heq : sysDeliverB hB sys src orig = sys := by simp [sysDeliverB, hq]
      rw [heq]; exact inv
  | cons m rest =>
      have heq : sysDeliverB hB sys src orig =
          { sys with
            b := (handleMessageEvent hB sys.b ⟨src, orig, m⟩).state,
            queueAB := rest,
            queueBA := sys.queueBA
              ++ (handleMessageEvent hB sys.b ⟨src, orig, m⟩).sent.map SendRec.payload,
            logB := sys.logB
              ++ (handleMessageEvent hB sys.b ⟨src, orig, m⟩).sent.map SendRec.payload } := by
        simp [sysDeliverB, hq]
      have hmlog : m ∈ sys.logA := inv.qAB m (by rw [hq]; exact List.mem_cons_self m rest)
      rw [heq]
      constructor
      · exact inv.boundA
      · exact inv.distinctA
      · intro p hp
        exact inv.qAB p (by rw [hq]; exact List.mem_cons_of_mem m hp)
      · intro p hp hpt id hpid
        rcases List.mem_append.mp hp with hold | hnew
        · exact inv.qBA p hold hpt id hpid
        · rcases handleMessageEvent_shape hB sys.b ⟨src, orig, m⟩ with
            ⟨_, _, hsent, _⟩ | ⟨id0, _, _, _, _, _, hsent, _⟩ |
            ⟨tgt, reply, o, hmt, hmc, _, _, hsent, _⟩
          · rw [hsent] at hnew; simp at hnew
          · rw [hsent] at hnew; simp at hnew
          · rw [hsent] at hnew
            simp only [List.map_cons, List.map_nil, List.mem_singleton] at hnew
            subst hnew
            have hid : tgt = id := by
              simpa [MsgData.cbIdOf] using hpid
            subst hid
            exact ⟨m, hmlog, hmt, hmc⟩
      · exact inv.tableA
      · exact inv.fulIdsA

theorem sysInv_deliverA {hA : Option Handler} {sys : Sys} (inv : SysInv sys)
    (src : Option Nat) (orig : String) : SysInv (sysDeliverA hA sys src orig) := by
  cases hq : sys.queueBA with
  | nil =>
      have heq : sysDeliverA hA sys src orig = sys := by simp [sysDeliverA, hq]
      rw [heq]; exact inv
  | cons m rest =>
      have heq : sysDeliverA hA sys src orig =
          { sys with
            a := (handleMessageEvent hA sys.a ⟨src, orig, m⟩).state,
            queueBA := rest,
            queueAB := sys.queueAB
              ++ (handleMessageEvent hA sys.a ⟨src, orig, m⟩).sent.map SendRec.payload,
            logA := sys.logA
              ++ (handleMessageEvent hA sys.a ⟨src, orig, m⟩).sent.map SendRec.payload,
            fulA := sys.fulA
              ++ (handleMessageEvent hA sys.a ⟨src, orig, m⟩).fulfilled } := by
        simp [sysDeliverA, hq]
      have hmem : m ∈ sys.queueBA := by rw [hq]; exact List.mem_cons_self m rest
      rw [heq]
      rcases handleMessageEvent_shape hA sys.a ⟨src, orig, m⟩ with
        ⟨hcnt, htbl, hsent, hful⟩ |
        ⟨id0, hmt, hmd, hid0mem, hcnt, htbl, hsent, hful⟩ |
        ⟨tgt, reply, o, hmt, hmc, hcnt, htbl, hsent, hful⟩
      · constructor
        · intro p hp
          rw [hsent] at hp
          simp only [List.map_nil, List.append_nil] at hp
          obtain ⟨k, hk1, hk2, hk3⟩ := inv.boundA p hp
          exact ⟨k, hk1, le_of_le_of_eq hk2 hcnt.symm, hk3⟩
        · rw [hsent]
          simpa using inv.distinctA
        · intro p hp
          rw [hsent] at hp ⊢
          simp only [List.map_nil, List.append_nil] at hp ⊢
          exact inv.qAB p hp
        · intro p hp hpt id hpid
          rw [hsent]
          simp only [List.map_nil, List.append_nil]
          exact inv.qBA p (by rw [hq]; exact List.mem_cons_of_mem m hp) hpt id hpid
        · intro id hrep
          rw [hsent] at hrep
          simp only [List.map_nil, List.append_nil] at hrep
          have := inv.tableA id hrep
          rw [show ({ sys with
              a := (handleMessageEvent hA sys.a ⟨src, orig, m⟩).state,
              queueBA := rest,
              queueAB := sys.queueAB
                ++ (handleMessageEvent hA sys.a ⟨src, orig, m⟩).sent.map SendRec.payload,
              logA := sys.logA
                ++ (handleMessageEvent hA sys.a ⟨src, orig, m⟩).sent.map SendRec.payload,
              fulA := sys.fulA
                ++ (handleMessageEvent hA sys.a ⟨src, orig, m⟩).fulfilled } : Sys).a.callbackTable
            = (handleMessageEvent hA sys.a ⟨src, orig, m⟩).state.callbackTable from rfl, htbl]
          exact this
        · intro f hf
          rw [hful] at hf
          simp only [List.append_nil] at hf
          obtain ⟨q, hqmem, hqa⟩ := inv.fulIdsA f hf
          rw [hsent]
          simp only [List.map_nil, List.append_nil]
          exact ⟨q, hqmem, hqa⟩
      · have hans : ∃ q ∈ sys.logA, isAnswerableWith id0 q :=
          inv.qBA m hmem hmt id0 hmd
        constructor
        · intro p hp
          rw [hsent] at hp
          simp only [List.map_nil, List.append_nil] at hp
          obtain ⟨k, hk1, hk2, hk3⟩ := inv.boundA p hp
          exact ⟨k, hk1, le_of_le_of_eq hk2 hcnt.symm, hk3⟩
        · rw [hsent]
          simpa using inv.distinctA
        · intro p hp
          rw [hsent] at hp ⊢
          simp only [List.map_nil, List.append_nil] at hp ⊢
          exact inv.qAB p hp
        · intro p hp hpt id hpid
          rw [hsent]
          simp only [List.map_nil, List.append_nil]
          exact inv.qBA p (by rw [hq]; exact List.mem_cons_of_mem m hp) hpt id hpid
        · intro id hrep
          rw [hsent] at hrep
          simp only [List.map_nil, List.append_nil] at hrep
          have hid : id ∈ sys.a.callbackTable := inv.tableA id hrep
          have hne : id ≠ id0 := by
            intro hcon
            subst hcon
            exact not_reply_and_answerable inv.distinctA hrep hans
          rw [show ({ sys with
              a := (handleMessageEvent hA sys.a ⟨src, orig, m⟩).state,
              queueBA := rest,
              queueAB := sys.queueAB
                ++ (handleMessageEvent hA sys.a ⟨src, orig, m⟩).sent.map SendRec.payload,
              logA := sys.logA
                ++ (handleMessageEvent hA sys.a ⟨src, orig, m⟩).sent.map SendRec.payload,
              fulA := sys.fulA
                ++ (handleMessageEvent hA sys.a ⟨src, orig, m⟩).fulfilled } : Sys).a.callbackTable
            = (handleMessageEvent hA sys.a ⟨src, orig, m⟩).state.callbackTable from rfl, htbl]
          exact (List.mem_erase_of_ne hne).mpr hid
        · intro f hf
          rw [hful] at hf
          rcases List.mem_append.mp hf with hold | hnew
          · obtain ⟨q, hqmem, hqa⟩ := inv.fulIdsA f hold
            rw [hsent]
            simp only [List.map_nil, List.append_nil]
            exact ⟨q, hqmem, hqa⟩
          · rw [List.mem_singleton] at hnew
            subst hnew
            rw [hsent]
            simp only [List.map_nil, List.append_nil]
            exact hans
      · constructor
        · intro p hp
          rw [hsent] at hp
          simp only [List.map_cons, List.map_nil] at hp
          rcases List.mem_append.mp hp with hold | hnew
          · obtain ⟨k, hk1, hk2, hk3⟩ := inv.boundA p hold
            exact ⟨k, hk1, le_of_le_of_eq (le_trans hk2 (Nat.le_succ _)) hcnt.symm, hk3⟩
          · rw [List.mem_singleton] at hnew
            subst hnew
            exact ⟨sys.a.callbackCounter + 1, Nat.le_add_left 1 _,
              le_of_le_of_eq (le_refl _) hcnt.symm, rfl⟩
        · rw [hsent]
          simp only [List.map_cons, List.map_nil]
          exact distinct_append_fresh inv.distinctA inv.boundA rfl
        · intro p hp
          rw [hsent] at hp ⊢
          simp only [List.map_cons, List.map_nil] at hp ⊢
          rcases List.mem_append.mp hp with hold | hnew
          · exact List.mem_append.mpr (Or.inl (inv.qAB p hold))
          · exact List.mem_append.mpr (Or.inr hnew)
        · intro p hp hpt id hpid
          obtain ⟨q, hqmem, hqa⟩ :=
            inv.qBA p (by rw [hq]; exact List.mem_cons_of_mem m hp) hpt id hpid
          rw [hsent]
          simp only [List.map_cons, List.map_nil]
          exact ⟨q, List.mem_append.mpr (Or.inl hqmem), hqa⟩
        · intro id hrep
          rw [hsent] at hrep
          simp only [List.map_cons, List.map_nil] at hrep
          rw [show ({ sys with
              a := (handleMessageEvent hA sys.a ⟨src, orig, m⟩).state,
              queueBA := rest,
              queueAB := sys.queueAB
                ++ (handleMessageEvent hA sys.a ⟨src, orig, m⟩).sent.map SendRec.payload,
              logA := sys.logA
                ++ (handleMessageEvent hA sys.a ⟨src, orig, m⟩).sent.map SendRec.payload,
              fulA := sys.fulA
                ++ (handleMessageEvent hA sys.a ⟨src, orig, m⟩).fulfilled } : Sys).a.callbackTable
            = (handleMessageEvent hA sys.a ⟨src, orig, m⟩).state.callbackTable from rfl, htbl]
          obtain ⟨p, hp, hpt, hpi⟩ := hrep
          rcases List.mem_append.mp hp with hold | hnew
          · exact List.mem_append.mpr (Or.inl (inv.tableA id ⟨p, hold, hpt, hpi⟩))
          · rw [List.mem_singleton] at hnew
            subst hnew
            have : Nat.repr (sys.a.callbackCounter + 1) = id := by
              simpa using hpi
            exact List.mem_append.mpr (Or.inr (by rw [← this]; exact List.mem_singleton.mpr rfl))
        · intro f hf
          rw [hful] at hf
          simp only [List.append_nil] at hf
          obtain ⟨q, hqmem, hqa⟩ := inv.fulIdsA f hf
          rw [hsent]
          simp only [List.map_cons, List.map_nil]
          exact ⟨q, List.mem_append.mpr (Or.inl hqmem), hqa⟩

theorem sysInv_listenA {sys : Sys} (inv : SysInv sys) (t : String) (fn : Nat)
    (opts : Option Bool) : SysInv (sysListenA sys t fn opts) := by
  cases hadd : addEventListener sys.a t fn opts with
  | error e =>
      have heq : sysListenA sys t fn opts = sys := by simp [sysListenA, hadd]
      rw [heq]; exact inv
  | ok a1 =>
      obtain ⟨hcnt, htbl⟩ := addEventListener_fields hadd
      have heq : sysListenA sys t fn opts = { sys with a := a1 } := by
        simp [sysListenA, hadd]
      rw [heq]
      constructor
      · intro p hp
        obtain ⟨k, hk1, hk2, hk3⟩ := inv.boundA p hp
        exact ⟨k, hk1, le_of_le_of_eq hk2 hcnt.symm, hk3⟩
      · exact inv.distinctA
      · exact inv.qAB
      · exact inv.qBA
      · intro id hrep
        have := inv.tableA id hrep
        show id ∈ a1.callbackTable
        rw [htbl]; exact this
      · exact inv.fulIdsA

theorem sysInv_detachA {sys : Sys} (inv : SysInv sys) :
    SysInv { sys with a := sys.a.detach } := by
  constructor
  · exact inv.boundA
  · exact inv.distinctA
  · exact inv.qAB
  · exact inv.qBA
  · exact inv.tableA
  · exact inv.fulIdsA

theorem sysInv_attachA {sys : Sys} (inv : SysInv sys) {w : Nat}
    {a1 : ControllerState} (hat : sys.a.attach w = .ok a1) :
    SysInv { sys with a := a1 } := by
  obtain ⟨hcnt, htbl⟩ := attach_fields hat
  constructor
  · intro p hp
    obtain ⟨k, hk1, hk2, hk3⟩ := inv.boundA p hp
    exact ⟨k, hk1, le_of_le_of_eq hk2 hcnt.symm, hk3⟩
  · exact inv.distinctA
  · exact inv.qAB
  · exact inv.qBA
  · intro id hrep
    have := inv.tableA id hrep
    show id ∈ a1.callbackTable
    rw [htbl]; exact this
  · exact inv.fulIdsA

theorem sysInv_step {hA hB : Option Handler} {sys sys2 : Sys}
    (inv : SysInv sys) (st : SysStep hA hB sys sys2) : SysInv sys2 := by
  cases st with
  | sendA t d ht => exact sysInv_sendA inv t d ht
  | sendB t d ht => exact sysInv_sendB inv t d ht
  | deliverA src orig => exact sysInv_deliverA inv src orig
  | deliverB src orig => exact sysInv_deliverB inv src orig
  | listenA t fn opts => exact sysInv_listenA inv t fn opts
  | detachA => exact sysInv_detachA inv
  | attachA w a1 hat => exact sysInv_attachA inv hat

theorem sysInv_start (originA originB : String) (evA evB : Option (List String)) :
    SysInv (sysInit originA originB evA evB) := by
  constructor
  · intro p hp; simp [sysInit] at hp
  · simp [sysInit]
  · intro p hp; simp [sysInit] at hp
  · intro p hp; simp [sysInit] at hp
  · intro id hrep
    obtain ⟨p, hp, _⟩ := hrep
    simp [sysInit] at hp
  · intro f hf; simp [sysInit] at hf

theorem sysInv_reachable {hA hB : Option Handler}
    {oA oB : String} {evA evB : Option (List String)} {sys : Sys}
    (htr : Relation.ReflTransGen (SysStep hA hB) (sysInit oA oB evA evB) sys) :
    SysInv sys := by
  induction htr with
  | refl => exact sysInv_start oA oB evA evB
  | tail hsteps hstep ih => exact sysInv_step ih hstep

theorem alistGet_set {α : Type} (l : List (String × α)) (k : String) (v : α) :
    alistGet (alistSet l k v) k = some v := by
  induction l with
  | nil => simp [alistGet, alistSet]
  | cons hd tl ih =>
      obtain ⟨k1, v1⟩ := hd
      by_cases hk : k1 = k <;> simp [alistGet, alistSet, hk, ih]

theorem processListeners_spec (l : List (String × ListenerRecord))
    (t : String) (args : List JValue) :
    processListeners l t args
      = (l.filter (fun p => !p.2.once),
         l.map (fun p => (p.1, p.2.fn, t, args))) := by
  induction l with
  | nil => rfl
  | cons hd tl ih =>
      obtain ⟨id, r⟩ := hd
      by_cases hr : r.once <;>
        simp [processListeners, hr, ih, List.filter_cons]

/-- C1 (code bug): an inbound `call` whose local feature handler throws —
here the unknown-action failure for the absent action `missing` — produces
no `callback` reply at all: the handler's rejected promise has no `.catch`
attached, so the failure is silently dropped.  The exception does not reach
the transport layer (nothing is thrown from `handleMessage`), but contrary
to the claim no error-flagged failure reply is sent back to the caller
either. -/
theorem c1_thrown_handler_error_produces_no_reply :
    featuresCallHandler testFeatures (callPayload "missing" [] "1")
      = .error (.error "unknown action: missing") ∧
    handleMessage testHandler testState (callPayload "missing" [] "1")
      "https://host.example" = noEffect testState := by
  exact ⟨rfl, by decide⟩

/-- C3 (counterexample): the current `Controller` binding has no
re-entrancy guard — after a first `init` was handled, a second inbound
`init` is processed again: nothing is thrown and a fresh reply is posted,
so the claimed fatal protocol-usage error does not occur. -/
theorem c3_counterexample :
    (handleMessage testHandler
        (handleMessage testHandler testState (initPayload "1")
          "https://host.example").state
        (initPayload "2") "https://host.example").thrown = none ∧
    (handleMessage testHandler
        (handleMessage testHandler testState (initPayload "1")
          "https://host.example").state
        (initPayload "2") "https://host.example").sent ≠ [] := by
  exact ⟨by decide, by decide⟩

/-- C3 (amended): the guard exists only in the legacy `Glue` binding of the
earlier revision: there the first processed `init` sets `initialized`
without throwing, and once `initialized` is set any further `init` throws
the fatal `glue is already initialized` error with no state change and no
reply; the current `Controller` binding processes every `init` (see the
counterexample). -/
theorem c3_legacy_init_guard
    (h : Option Handler) (s : LegacyState) (m m2 : Payload) (cb : String)
    (hm : m.type = some "init") (hcb : m.callbackId = some cb)
    (hs : s.initialized = false) (hm2 : m2.type = some "init") :
    (legacyHandleMessage h s m).state.initialized = true ∧
    (legacyHandleMessage h s m).thrown = none ∧
    (∀ s2 : LegacyState, s2.initialized = true →
      (legacyHandleMessage h s2 m2).state = s2 ∧
      (legacyHandleMessage h s2 m2).thrown = some .alreadyInitialized ∧
      (legacyHandleMessage h s2 m2).sent = []) := by
  refine ⟨?_, ?_, ?_⟩
  · cases hh : h with
    | none => simp [legacyHandleMessage, hm, hcb, hs, hh, legacyNoEffect]
    | some handler =>
        cases hr : handler m with
        | ok reply =>
            simp [legacyHandleMessage, hm, hcb, hs, hh, hr, legacyNoEffect,
              LegacyState.reply, LegacyState.post]
        | error e =>
            simp [legacyHandleMessage, hm, hcb, hs, hh, hr, legacyNoEffect]
  · cases hh : h with
    | none => simp [legacyHandleMessage, hm, hcb, hs, hh, legacyNoEffect]
    | some handler =>
        cases hr : handler m with
        | ok reply =>
            simp [legacyHandleMessage, hm, hcb, hs, hh, hr, legacyNoEffect,
              LegacyState.reply, LegacyState.post]
        | error e =>
            simp [legacyHandleMessage, hm, hcb, hs, hh, hr, legacyNoEffect]
  · intro s2 hs2
    refine ⟨?_, ?_, ?_⟩ <;> simp [legacyHandleMessage, hm2, hs2, legacyNoEffect]

theorem c3_legacy_init_guard_witness :
    (legacyHandleMessage testHandler legacyFresh (initPayload "1")).state.initialized
      = true ∧
    (legacyHandleMessage testHandler
        (legacyHandleMessage testHandler legacyFresh (initPayload "1")).state
        (initPayload "2")).thrown = some .alreadyInitialized := by
  have h1 := c3_legacy_init_guard testHandler legacyFresh (initPayload "1")
    (initPayload "2") "1" rfl rfl rfl rfl
  refine ⟨h1.1, ?_⟩
  exact (h1.2.2 (legacyHandleMessage testHandler legacyFresh (initPayload "1")).state
    h1.1).2.1

/-- C4 (counterexample): a message event whose origin is the sandbox
sentinel `"null"` — a string different from the binding's configured
expected origin `https://host.example` — is not dropped: processing an
`init` under it bumps the correlation counter, grows the Callback
Registry, and rewrites the target origin, so the binding's observable
state does change. -/
theorem c4_counterexample :
    ("null" : String) ≠ testState.origin ∧
    (handleMessageEvent testHandler testState
        ⟨some 7, "null", initPayload "9"⟩).state.callbackCounter
      = testState.callbackCounter + 1 ∧
    (handleMessageEvent testHandler testState
        ⟨some 7, "null", initPayload "9"⟩).state.callbackTable
      ≠ testState.callbackTable := by
  exact ⟨by decide, by decide, by decide⟩

/-- C4 (amended): for every inbound message event whose origin differs
from the binding's expected origin AND is not the sandbox sentinel
`"null"`, processing is a no-op: the state is unchanged and no send,
fulfillment, listener invocation or throw occurs. -/
theorem c4_foreign_origin_no_effect
    (h : Option Handler) (s : ControllerState) (e : GMessageEvent)
    (h1 : e.origin ≠ "null") (h2 : e.origin ≠ s.origin) :
    handleMessageEvent h s e = noEffect s := by
  by_cases hs : sourceMatches e.source s.window = false
  · simp [handleMessageEvent, hs]
  · simp [handleMessageEvent, hs, h1, h2]

theorem c4_foreign_origin_no_effect_witness :
    handleMessageEvent testHandler testState
      ⟨some 7, "https://evil.example", callPayload "echo" [] "1"⟩
      = noEffect testState :=
  c4_foreign_origin_no_effect testHandler testState
    ⟨some 7, "https://evil.example", callPayload "echo" [] "1"⟩
    (by decide) (by decide)

/-- C7 (counterexample): an envelope that passed the source check but
carries a foreign origin together with a version (5) above the local
protocol version is dropped silently — no fatal version-incompatibility
error is thrown, contrary to the claim, because the origin check runs
before the version check. -/
theorem c7_counterexample :
    handleMessageEvent testHandler testState
      ⟨some 7, "https://evil.example",
       ⟨some 5, true, some "call", .callD "echo" (some []), some "1"⟩⟩
      = noEffect testState ∧
    (noEffect testState).thrown = none := by
  exact ⟨by decide, rfl⟩

/-- C7 (amended): for every inbound envelope that passed the source check
AND the origin check: a false marker — or a missing version or type
field — is silently ignored with no effect; a version above the local
`API_VERSION` throws the fatal incompatibility error; and a version at
most the local one, with the marker true and a type present, is accepted
and dispatched to `handleMessage`. -/
theorem c7_marker_version_gate
    (h : Option Handler) (s : ControllerState) (e : GMessageEvent)
    (hsrc : sourceMatches e.source s.window = true)
    (horig : e.origin = "null" ∨ e.origin = s.origin) :
    (e.data.glue = false → handleMessageEvent h s e = noEffect s) ∧
    (∀ v t, e.data.v = some v → e.data.type = some t → e.data.glue = true →
      API_VERSION < v →
      handleMessageEvent h s e
        = { noEffect s with thrown := some (.versionsIncompatible v) }) ∧
    (∀ v t, e.data.v = some v → e.data.type = some t → e.data.glue = true →
      v ≤ API_VERSION →
      handleMessageEvent h s e = handleMessage h s e.data e.origin) ∧
    ((e.data.v = none ∨ e.data.type = none) →
      handleMessageEvent h s e = noEffect s) := by
  have hsrc2 : ¬ sourceMatches e.source s.window = false := by simp [hsrc]
  have horig2 : ¬ (e.origin ≠ "null" ∧ e.origin ≠ s.origin) := by
    rcases horig with h1 | h1 <;> simp [h1]
  refine ⟨?_, ?_, ?_, ?_⟩
  · intro hg
    cases hv : e.data.v with
    | none => simp [handleMessageEvent, hsrc2, horig2, hv]
    | some v =>
        cases hty : e.data.type with
        | none => simp [handleMessageEvent, hsrc2, horig2, hv, hty]
        | some t => simp [handleMessageEvent, hsrc2, horig2, hv, hty, hg]
  · intro v t hv hty hg hver
    simp [handleMessageEvent, hsrc2, horig2, hv, hty, hg, hver]
  · intro v t hv hty hg hver
    have hver2 : ¬ API_VERSION < v := by omega
    simp [handleMessageEvent, hsrc2, horig2, hv, hty, hg, hver2]
  · intro hvt
    rcases hvt with hv | hty
    · simp [handleMessageEvent, hsrc2, horig2, hv]
    · cases hv : e.data.v with
      | none => simp [handleMessageEvent, hsrc2, horig2, hv]
      | some v => simp [handleMessageEvent, hsrc2, horig2, hv, hty]

theorem c7_marker_version_gate_witness :
    handleMessageEvent testHandler testState
      ⟨some 7, "https://host.example",
       ⟨some 5, true, some "call", .callD "echo" (some []), some "1"⟩⟩
      = { noEffect testState with thrown := some (.versionsIncompatible 5) } :=
  (c7_marker_version_gate testHandler testState
      ⟨some 7, "https://host.example",
       ⟨some 5, true, some "call", .callD "echo" (some []), some "1"⟩⟩
      (by decide) (Or.inr (by decide))).2.1 5 "call" rfl rfl rfl (by decide)

/-- C6: `destroy()` is idempotent — a second call returns with no further
effect — and after a completed `destroy()` the inbound listener is
unregistered, the Callback Registry and the Event Listener Table are both
empty, the terminal `destroyed` flag is set, and every subsequent `call`
(rejected as not attached, since destroy detaches), `attach` and
`dispatchEvent` (both rejected as destroyed) fails with a
ProtocolViolation-class error. -/
theorem c6_destroy_idempotent_terminal
    (s : ControllerState) (w : Nat) (A evType : String) (xs : List JValue)
    (hs : s.destroyed = false) :
    glueDestroy (glueDestroy s) = glueDestroy s ∧
    (glueDestroy s).callbackTable = [] ∧
    (glueDestroy s).eventListenerTable = [] ∧
    (glueDestroy s).listening = false ∧
    (glueDestroy s).destroyed = true ∧
    (callAction (glueDestroy s) A xs
        = (glueDestroy s, none, some .notAttached)
      ∧ GlueError.notAttached.protocolViolationClass = true) ∧
    ((glueDestroy s).attach w = .error .destroyed
      ∧ GlueError.destroyed.protocolViolationClass = true) ∧
    dispatchEvent (glueDestroy s) evType xs
      = (glueDestroy s, none, some .destroyed) := by
  refine ⟨?_, ?_, ?_, ?_, ?_, ⟨?_, rfl⟩, ⟨?_, rfl⟩, ?_⟩ <;>
    simp [glueDestroy, hs, callAction, ControllerState.postMessage,
      ControllerState.attach, dispatchEvent]

theorem c6_destroy_idempotent_terminal_witness :
    (glueDestroy (glueDestroy testState) = glueDestroy testState) ∧
    (glueDestroy testState).callbackTable = [] ∧
    dispatchEvent (glueDestroy testState) "x" []
      = (glueDestroy testState, none, some .destroyed) := by
  have h := c6_destroy_idempotent_terminal testState 3 "a" "x" [] rfl
  exact ⟨h.1, h.2.1, h.2.2.2.2.2.2.2⟩

/-- C5 (counterexample): the very first inbound message from the bound
remote context reports the sandbox sentinel origin but is of type `call`:
the binding accepts and processes it (its reply is posted), yet no
wildcard downgrade happens — the binding's target origin stays the
configured `https://host.example` and the posted reply itself targets
that origin, not `*`.  The downgrade is tied to `init` envelopes, not to
the first inbound message of whatever type. -/
theorem c5_counterexample :
    ((handleMessageEvent testHandler testState
        ⟨some 7, "null", callPayload "echo" [.num 1] "5"⟩).sent.map
      SendRec.targetOrigin) = ["https://host.example"] ∧
    (handleMessageEvent testHandler testState
        ⟨some 7, "null", callPayload "echo" [.num 1] "5"⟩).state.origin
      = "https://host.example" := by
  exact ⟨by decide, by decide⟩

/-- C5 (amended): a message event reporting the sandbox sentinel origin
always passes the origin check, whatever the configured expected origin —
processing proceeds exactly as if the origin check were absent; the
one-time downgrade of the binding's target origin to the wildcard happens
when an `init` envelope carrying a callbackId is processed with the
sentinel origin; and once downgraded, every outbound send posts with the
wildcard target origin. -/
theorem c5_sandbox_sentinel_downgrade
    (h : Option Handler) (s : ControllerState) (e : GMessageEvent)
    (m : Payload) (cb : String)
    (he : e.origin = "null")
    (hm : m.type = some "init") (hcb : m.callbackId = some cb) :
    (handleMessageEvent h s e
      = (if sourceMatches e.source s.window = false then noEffect s
         else
           match e.data.v, e.data.type with
           | some v, some _ =>
               if e.data.glue = false then noEffect s
               else if API_VERSION < v then
                 { noEffect s with thrown := some (.versionsIncompatible v) }
               else handleMessage h s e.data e.origin
           | _, _ => noEffect s)) ∧
    (handleMessage h s m "null").state.origin = "*" ∧
    (∀ (s2 : ControllerState) (w2 : Nat) (t : String) (d : MsgData),
      s2.origin = "*" → s2.window = some w2 →
      (s2.postMessage t d).2.1
        = some ⟨⟨some API_VERSION, true, some t, d,
            some (Nat.repr (s2.callbackCounter + 1))⟩, "*"⟩) := by
  refine ⟨?_, ?_, ?_⟩
  · have horig2 : ¬ (e.origin ≠ "null" ∧ e.origin ≠ s.origin) := by simp [he]
    by_cases hsrc : sourceMatches e.source s.window = false
    · simp [handleMessageEvent, hsrc]
    · cases hv : e.data.v with
      | none => simp [handleMessageEvent, hsrc, horig2, hv]
      | some v =>
          cases hty : e.data.type with
          | none => simp [handleMessageEvent, hsrc, horig2, hv, hty]
          | some t => simp [handleMessageEvent, hsrc, horig2, hv, hty]
  · cases hh : h with
    | none => simp [handleMessage, hm, hcb, hh, noEffect]
    | some handler =>
        cases hr : handler m with
        | ok reply =>
            cases hw2 : s.window with
            | none =>
                simp [handleMessage, hm, hcb, hh, hr, noEffect,
                  ControllerState.replyMessage, ControllerState.postMessage, hw2]
            | some w =>
                simp [handleMessage, hm, hcb, hh, hr, noEffect,
                  ControllerState.replyMessage, ControllerState.postMessage, hw2]
        | error e2 => simp [handleMessage, hm, hcb, hh, hr, noEffect]
  · intro s2 w2 t d ho hw2
    simp [ControllerState.postMessage, hw2, ho]

theorem c5_sandbox_sentinel_downgrade_witness :
    (handleMessage testHandler testState (initPayload "4") "null").state.origin
      = "*" ∧
    (((handleMessage testHandler testState (initPayload "4") "null").state.postMessage
        "call" (.callD "echo" (some []))).2.1).map SendRec.targetOrigin
      = some "*" := by
  have h := c5_sandbox_sentinel_downgrade testHandler testState
    ⟨some 7, "null", initPayload "4"⟩ (initPayload "4") "4" rfl rfl rfl
  refine ⟨h.2.1, ?_⟩
  rw [h.2.2 (handleMessage testHandler testState (initPayload "4") "null").state
    7 "call" (.callD "echo" (some [])) h.2.1 (by decide)]
  rfl

/-- C8: processing an `event.dispatch` envelope for an event type with
registered listeners invokes every listener of that type in registration
order, passing the event type and the supplied arguments; the listeners
registered with the `once` option are the ones removed from the Event
Listener Table (the type's entry is dropped entirely when none remain);
afterwards exactly one `callback` acknowledgment carrying a null payload
is posted; and `addEventListener` appends to the type's listener list, so
list order is registration order. -/
theorem c8_event_dispatch_listeners
    (s : ControllerState) (w : Nat) (t cb orig : String) (xs : List JValue)
    (h : Option Handler) (listeners : List (String × ListenerRecord))
    (hw : s.window = some w)
    (hl : alistGet s.eventListenerTable t = some listeners) :
    ((handleMessage h s (eventPayload t xs cb) orig).invoked
        = listeners.map (fun p => (p.1, p.2.fn, t, xs))) ∧
    ((handleMessage h s (eventPayload t xs cb) orig).state.eventListenerTable
        = (if (listeners.filter (fun p => !p.2.once)).isEmpty then
             alistErase (alistSet s.eventListenerTable t
               (listeners.filter (fun p => !p.2.once))) t
           else alistSet s.eventListenerTable t
             (listeners.filter (fun p => !p.2.once)))) ∧
    ((handleMessage h s (eventPayload t xs cb) orig).sent
        = [⟨⟨some API_VERSION, true, some "callback", .callbackD cb .null false,
             some (Nat.repr (s.callbackCounter + 1))⟩, s.origin⟩]) ∧
    ((handleMessage h s (eventPayload t xs cb) orig).thrown = none) ∧
    (∀ (s3 : ControllerState) (fn : Nat) (opts : Option Bool)
       (s4 : ControllerState),
      addEventListener s3 t fn opts = .ok s4 →
      alistGet s4.eventListenerTable t
        = some ((alistGet s3.eventListenerTable t).getD []
            ++ [(Nat.repr (s3.eventListenerCounter + 1), ⟨fn, opts⟩)])) := by
  refine ⟨?_, ?_, ?_, ?_, ?_⟩
  · simp [handleMessage, eventPayload, MsgData.eventTypeOf, MsgData.argsOf,
      hl, processListeners_spec, noEffect,
      ControllerState.replyMessage, ControllerState.postMessage, hw]
  · simp [handleMessage, eventPayload, MsgData.eventTypeOf, MsgData.argsOf,
      hl, processListeners_spec, noEffect,
      ControllerState.replyMessage, ControllerState.postMessage, hw]
    rw [processListeners_spec]
  · simp [handleMessage, eventPayload, MsgData.eventTypeOf, MsgData.argsOf,
      hl, processListeners_spec, noEffect,
      ControllerState.replyMessage, ControllerState.postMessage, hw]
  · simp [handleMessage, eventPayload, MsgData.eventTypeOf, MsgData.argsOf,
      hl, processListeners_spec, noEffect,
      ControllerState.replyMessage, ControllerState.postMessage, hw]
  · intro s3 fn opts s4 hadd
    by_cases hdes : s3.destroyed
    · simp [addEventListener, hdes] at hadd
    · by_cases his : (alistGet s3.eventListenerTable t).isSome
      · obtain ⟨l0, hl0⟩ := Option.isSome_iff_exists.mp his
        simp only [addEventListener, hdes, his, hl0] at hadd
        simp only [Bool.false_eq_true, if_false, if_true, Except.ok.injEq] at hadd
        subst hadd
        simp [alistGet_set, hl0]
      · have hl0 : alistGet s3.eventListenerTable t = none := by
          rw [Option.not_isSome_iff_eq_none] at his
          exact his
        simp only [addEventListener, hdes, his, hl0] at hadd
        simp only [Bool.false_eq_true, if_false, Except.ok.injEq] at hadd
        subst hadd
        simp [alistGet_set, hl0]

/-- C9: on the embedded `enable` path, when the initialization timer fires
first the operation's promise is rejected with the timeout error and the
terminal `failed` flag is set; an `init` reply arriving afterwards only
clears the timer and is otherwise discarded (no `ready` send, no
settlement change); and once the promise is settled no later event ever
changes the settlement, so the future is never resolved after having been
rejected. -/
theorem c9_enable_timeout_flag
    (c : ControllerState) (d : Option InitReplyData) :
    ((enableStep (enableStart c) .timerFires).1.failed = true ∧
     (enableStep (enableStart c) .timerFires).1.outcome
        = some (.error .timeout)) ∧
    (∀ s : EnableState, s.failed = true →
      (enableStep s (.initReply d)).1 = { s with timerActive := false } ∧
      (enableStep s (.initReply d)).2 = []) ∧
    (∀ (s : EnableState) (e : EnableEvent) (x : Except GlueError Nat),
      s.outcome = some x → (enableStep s e).1.outcome = some x) ∧
    ((enableStep (enableStep (enableStart c) .timerFires).1
        (.initReply d)).1.outcome = some (.error .timeout)) := by
  refine ⟨⟨?_, ?_⟩, ?_, ?_, ?_⟩
  · simp [enableStep, enableStart]
  · simp [enableStep, enableStart, settle]
  · intro s hf
    simp [enableStep, hf]
  · intro s e x hx
    cases e with
    | timerFires =>
        by_cases ht : s.timerActive <;> simp [enableStep, ht, settle, hx]
    | initReply d2 =>
        by_cases hf : s.failed
        · simp [enableStep, hf, hx]
        · cases d2 with
          | none => simp [enableStep, hf, settle, hx]
          | some data =>
              by_cases he : data.error <;>
                simp [enableStep, hf, he, settle, hx]
    | readyAck =>
        by_cases hp : s.pendingReady <;> simp [enableStep, hp, settle, hx]
  · simp [enableStep, enableStart, settle]

theorem c9_enable_timeout_flag_witness :
    (enableStep (enableStep (enableStart testState) .timerFires).1
        (.initReply (some ⟨["echo"], false⟩))).1.outcome
      = some (.error .timeout) :=
  (c9_enable_timeout_flag testState (some ⟨["echo"], false⟩)).2.2.2

theorem c8_event_dispatch_listeners_witness :
    (handleMessage testHandler
        { testState with eventListenerTable :=
            [("ping", [("1", ⟨10, some true⟩), ("2", ⟨11, none⟩)])] }
        (eventPayload "ping" [.num 3] "9") "https://host.example").invoked
      = [("1", 10, "ping", [JValue.num 3]), ("2", 11, "ping", [JValue.num 3])] ∧
    (handleMessage testHandler
        { testState with eventListenerTable :=
            [("ping", [("1", ⟨10, some true⟩), ("2", ⟨11, none⟩)])] }
        (eventPayload "ping" [.num 3] "9") "https://host.example").state.eventListenerTable
      = [("ping", [("2", ⟨11, none⟩)])] := by
  have h := c8_event_dispatch_listeners
    { testState with eventListenerTable :=
        [("ping", [("1", ⟨10, some true⟩), ("2", ⟨11, none⟩)])] }
    7 "ping" "9" "https://host.example" [.num 3] testHandler
    [("1", ⟨10, some true⟩), ("2", ⟨11, none⟩)] rfl (by decide)
  exact ⟨h.1.trans (by decide), (h.2.1).trans (by decide)⟩

/-- C2 (code bug): the registered half of the claim holds end to end — a
proxy call posts a `call` envelope with the action and arguments, the
remote feature handler returns `z`, the remote side replies with a
`callback` envelope, and delivering that reply fulfills the caller's
pending record with success `z`.  The unregistered half fails in the
code: as the second conjunct evaluates at the absent action `missing`,
the remote side's unknown-action throw results in no reply at all (the
rejected handler promise has no `.catch`), so the caller's promise is
never rejected with the claimed UnknownAction failure — it never settles. -/
theorem c2_call_roundtrip
    (feats : List (String × FeatureFn)) (A : String) (f : FeatureFn)
    (xs : List JValue) (z : JValue) (sN sE sN1 : ControllerState)
    (sr1 : SendRec) (hN : Option Handler) (o1 o2 : String)
    (hf : lookupA feats A = some f) (hz : f xs = .ok z)
    (hwE : ∃ w, sE.window = some w)
    (hc : callAction sN A xs = (sN1, some sr1, none)) :
    (((handleMessage (some (featuresCallHandler feats)) sE sr1.payload o1).sent.map
        (fun sr2 => (handleMessage hN sN1 sr2.payload o2).fulfilled))
      = [[(Nat.repr (sN.callbackCounter + 1), false, z)]]) ∧
    handleMessage testHandler testState (callPayload "missing" [] "7")
      "https://host.example" = noEffect testState := by
  refine ⟨?_, by decide⟩
  obtain ⟨w, hwEs⟩ := hwE
  cases hwN : sN.window with
  | none => simp [callAction, ControllerState.postMessage, hwN] at hc
  | some w0 =>
      simp only [callAction, ControllerState.postMessage, hwN, Prod.mk.injEq,
        Option.some.injEq] at hc
      obtain ⟨hs1, hsr, -⟩ := hc
      subst hs1
      subst hsr
      simp [handleMessage, featuresCallHandler, MsgData.actionOf, MsgData.argsOf,
        MsgData.cbIdOf, MsgData.errorOf, MsgData.valueOf, hf, hz,
        ControllerState.replyMessage, ControllerState.postMessage, hwEs, noEffect]

theorem c2_call_roundtrip_witness :
    ((handleMessage (some (featuresCallHandler testFeatures)) testState
        (callPayload "echo" [.str "hi"] "1") "https://host.example").sent.map
      (fun sr2 =>
        (handleMessage none
          { testState with callbackCounter := 1, callbackTable := ["1"] }
          sr2.payload "https://host.example").fulfilled))
      = [[("1", false, .str "hi")]] := by
  have h := c2_call_roundtrip testFeatures "echo"
    (fun args => Except.ok (args.headD .null)) [.str "hi"] (.str "hi")
    testState testState
    { testState with callbackCounter := 1, callbackTable := ["1"] }
    ⟨callPayload "echo" [.str "hi"] "1", "https://host.example"⟩
    none "https://host.example" "https://host.example"
    rfl rfl ⟨7, rfl⟩ (by decide)
  exact h.1

/-- C10 (implicit): every outbound envelope — `callback` replies to calls
and `event.dispatch` acknowledgments included — allocates the next
correlation id from the shared per-binding counter and inserts a pending
record keyed by it into the Callback Registry; because a peer's
`handleMessage` never replies to a `callback`-typed envelope, in any run
of two bindings every `callback` reply side `a` ever posted leaves its
record pending in `a`'s registry forever and no fulfillment ever concerns
its id; only `destroy()` empties the registry. -/
theorem c10_reply_records_leak :
    (∀ (s : ControllerState) (w : Nat) (t : String) (d : MsgData),
      s.window = some w →
      s.postMessage t d
        = ({ s with
              callbackCounter := s.callbackCounter + 1,
              callbackTable :=
                s.callbackTable ++ [Nat.repr (s.callbackCounter + 1)] },
           some ⟨⟨some API_VERSION, true, some t, d,
             some (Nat.repr (s.callbackCounter + 1))⟩, s.origin⟩, none)) ∧
    (∀ (hA hB : Option Handler) (oA oB : String)
       (evA evB : Option (List String)) (sys : Sys),
      Relation.ReflTransGen (SysStep hA hB) (sysInit oA oB evA evB) sys →
      ∀ id, (∃ p ∈ sys.logA, isReplyWith id p) →
        id ∈ sys.a.callbackTable ∧ ∀ f ∈ sys.fulA, f.1 ≠ id) ∧
    (∀ s : ControllerState, s.destroyed = false →
      (glueDestroy s).callbackTable = []) := by
  refine ⟨?_, ?_, ?_⟩
  · intro s w t d hw
    simp [ControllerState.postMessage, hw]
  · intro hA hB oA oB evA evB sys htr id hrep
    have inv := sysInv_reachable htr
    refine ⟨inv.tableA id hrep, ?_⟩
    intro f hf hcon
    obtain ⟨q, hq, hqa⟩ := inv.fulIdsA f hf
    exact not_reply_and_answerable inv.distinctA hrep ⟨q, hq, hcon ▸ hqa⟩
  · intro s hs
    simp [glueDestroy, hs]

theorem c10_reply_records_leak_witness :
    ("1" : String) ∈ (sysDeliverA testHandler
        (sysSendB (sysInit "https://a.example" "https://b.example" none none)
          "call" (.callD "echo" (some [.str "hi"])))
        (some 1) "https://a.example").a.callbackTable := by
  have htr : Relation.ReflTransGen (SysStep testHandler none)
      (sysInit "https://a.example" "https://b.example" none none)
      (sysDeliverA testHandler
        (sysSendB (sysInit "https://a.example" "https://b.example" none none)
          "call" (.callD "echo" (some [.str "hi"])))
        (some 1) "https://a.example") :=
    Relation.ReflTransGen.tail
      (Relation.ReflTransGen.tail Relation.ReflTransGen.refl
        (SysStep.sendB _ "call" (.callD "echo" (some [.str "hi"])) (by decide)))
      (SysStep.deliverA _ (some 1) "https://a.example")
  exact ((c10_reply_records_leak.2.1) testHandler none "https://a.example"
    "https://b.example" none none _ htr "1" (by decide)).1
